import Mathlib

/-!
Shallow embedding of the ganeti job queue (lib/jqueue.py) and of the KVM
vCPU descriptor mapping (lib/hypervisor/hv_kvm/types.py), together with
theorems settling the specification claims about them.

Opcode payloads and processor results are opaque to the queue, so the
embedding is parameterised over their types: `α` is the opcode payload
type and `β` the processor result type.  A Python exception raised by a
processor is modelled as `Except String β` (the queue only ever looks at
`str(err)`); mutation of a job or registry object is modelled by
returning the updated value together with the outcome of the call.
-/

namespace Ganeti

/-- Opcode slot states, mirroring constants.OP_STATUS_QUEUED, RUNNING,
SUCCESS and ERROR in the source. -/
inductive OpStatus where
  | queued
  | running
  | success
  | error
  deriving DecidableEq

/-- Job aggregate states, mirroring constants.JOB_STATUS_QUEUED, RUNNING,
SUCCESS and ERROR in the source. -/
inductive JobStatus where
  | queued
  | running
  | success
  | error
  deriving DecidableEq

/-- Value held in an opcode slot's result field once the slot is resolved:
the processor result on success, or the failure text str(err) on error. -/
inductive OpResult (β : Type) where
  | ok (v : β)
  | fail (msg : String)
  deriving DecidableEq

/-- One opcode slot (class _QueuedOpCode): the submitted input plus the
mutable status and result fields. -/
structure QueuedOpCode (α β : Type) where
  input : α
  status : OpStatus
  result : Option (OpResult β)
  deriving DecidableEq

/-- Fresh slot as built by _QueuedOpCode.__init__: status QUEUED, result
None. -/
def mkQueuedOpCode {α β : Type} (op : α) : QueuedOpCode α β :=
  { input := op, status := .queued, result := none }

/-- In-memory job (class _QueuedJob): identifier plus ordered slot list. -/
structure QueuedJob (α β : Type) where
  id : String
  ops : List (QueuedOpCode α β)
  deriving DecidableEq

variable {α β : Type}

/-- Constructor _QueuedJob.__init__: raises on an empty opcode sequence,
otherwise wraps every opcode in a fresh QUEUED slot. -/
def QueuedJob.init (ops : List α) (job_id : String) :
    Except String (QueuedJob α β) :=
  if ops.isEmpty then .error "No opcodes"
  else .ok { id := job_id, ops := ops.map mkQueuedOpCode }

/-- The loop body of _QueuedJob._GetStatusUnlocked, carrying the local
variables status and all_success through the slot-status list. -/
def statusLoop : JobStatus → Bool → List OpStatus → JobStatus × Bool
  | status, allSuccess, [] => (status, allSuccess)
  | status, allSuccess, s :: rest =>
    match s with
    | .success => statusLoop status allSuccess rest
    | .queued => statusLoop status false rest
    | .error => statusLoop .error false rest
    | .running => statusLoop .running false rest

/-- _QueuedJob._GetStatusUnlocked: runs the loop starting from status
QUEUED and all_success True, then overrides with SUCCESS when every slot
was SUCCESS. -/
def GetStatusUnlocked (ops : List (QueuedOpCode α β)) : JobStatus :=
  let r := statusLoop .queued true (ops.map (fun op => op.status))
  if r.2 then .success else r.1

/-- _QueuedJob.GetStatus: takes the job lock and delegates to
_GetStatusUnlocked; the lock is irrelevant in this sequential model. -/
def QueuedJob.GetStatus (job : QueuedJob α β) : JobStatus :=
  GetStatusUnlocked job.ops

/-- The status of the last slot that is ERROR or RUNNING, if any: this is
what the write-last-wins loop of _GetStatusUnlocked leaves in its status
variable. -/
def lastER : List OpStatus → Option JobStatus
  | [] => none
  | s :: rest =>
    match lastER rest with
    | some j => some j
    | none =>
      match s with
      | .error => some JobStatus.error
      | .running => some JobStatus.running
      | _ => none

/-- Closed-form description of the aggregate status actually computed by
the source: SUCCESS when every slot is SUCCESS, otherwise the status of
the last ERROR-or-RUNNING slot, QUEUED when there is none. -/
def specAgg (l : List OpStatus) : JobStatus :=
  if l.all (fun s => s == .success) then .success
  else (lastER l).getD .queued

/-- Test helper: a slot over trivial payload types holding a given status. -/
def testSlot (s : OpStatus) : QueuedOpCode Nat Nat :=
  { input := 0, status := s, result := none }

/-- The opcode loop of _QueuedJob.Run.  Each slot is set RUNNING, the
processor is invoked on its input, and the slot is resolved to SUCCESS
with the processor result or to ERROR with the failure text; a failure is
re-raised by the per-opcode handler, aborting the loop with the remaining
slots untouched.  Returns the final slot list, the list of inputs that
were passed to the processor, and the exception escaping the loop, if
any. -/
def runOps (proc : α → Except String β) :
    List (QueuedOpCode α β) →
      List (QueuedOpCode α β) × List α × Option String
  | [] => ([], [], none)
  | op :: rest =>
    match proc op.input with
    | .ok r =>
      match runOps proc rest with
      | (rest', trace, esc) =>
        ({ input := op.input, status := .success, result := some (.ok r) }
           :: rest',
         op.input :: trace, esc)
    | .error e =>
      ({ input := op.input, status := .error, result := some (.fail e) }
         :: rest,
       [op.input], some e)

/-- _QueuedJob.Run: runs the opcode loop, and its outer except clauses
(errors.GenericError, Exception, bare except) catch any exception escaping
the loop and only log it, so no exception ever propagates out of Run.  The
third component is the exception escaping Run itself. -/
def Run (proc : α → Except String β) (ops : List (QueuedOpCode α β)) :
    List (QueuedOpCode α β) × List α × Option String :=
  match runOps proc ops with
  | (ops', trace, _e) => (ops', trace, none)

/-- The slot that the loop body of Run leaves behind for an opcode it
actually reached: resolved from the processor outcome on its input. -/
def runSlot (proc : α → Except String β) (a : α) : QueuedOpCode α β :=
  match proc a with
  | .ok r => { input := a, status := .success, result := some (.ok r) }
  | .error e => { input := a, status := .error, result := some (.fail e) }

/-- Lookup in a Python dict, modelled as an association list:
d.get(k, None). -/
def assocGet {γ : Type} (d : List (String × γ)) (k : String) : Option γ :=
  (d.find? (fun p => p.1 == k)).map (fun p => p.2)

/-- Assignment d[k] = v on a Python dict modelled as an association list:
replaces the entry if the key is present, otherwise appends it. -/
def assocSet {γ : Type} (d : List (String × γ)) (k : String) (v : γ) :
    List (String × γ) :=
  if d.any (fun p => p.1 == k) then
    d.map (fun p => if p.1 == k then (k, v) else p)
  else d ++ [(k, v)]

/-- The job queue registry (class JobQueue): the id counter and the job
table.  The worker pool only receives the job object and is irrelevant to
the registry state modelled here. -/
structure JobQueue (α β : Type) where
  last_job_id : Nat
  jobs : List (String × QueuedJob α β)
  deriving DecidableEq

/-- JobQueue.__init__: counter 0, empty job table. -/
def JobQueue.new : JobQueue α β :=
  { last_job_id := 0, jobs := [] }

/-- JobQueue.SubmitJob.  The id is allocated (counter incremented and
formatted) by _NewJobIdUnlocked before _QueuedJob is constructed; if the
constructor raises, the exception propagates but the consumed id remains.
Otherwise the job is stored under its id and the id returned.  Returns the
registry state after the call together with the outcome. -/
def SubmitJob (q : JobQueue α β) (ops : List α) :
    JobQueue α β × Except String String :=
  let last := q.last_job_id + 1
  let job_id := toString last
  let q1 : JobQueue α β := { q with last_job_id := last }
  match QueuedJob.init (β := β) ops job_id with
  | .error e => (q1, .error e)
  | .ok job => ({ q1 with jobs := assocSet q1.jobs job_id job }, .ok job_id)

/-- One projected value in a query row: the job id for field id, the
aggregate status for field status, and the per-slot result list for field
result. -/
inductive QueryValue (β : Type) where
  | id (s : String)
  | status (st : JobStatus)
  | results (rs : List (Option (OpResult β)))
  deriving DecidableEq

/-- The message of the exception raised by JobQueue._GetJobInfo for an
unrecognized field name. -/
def invalidFieldMsg (f : String) : String :=
  "Invalid job query field \x27" ++ f ++ "\x27"

/-- JobQueue._GetJobInfo: builds the row for one job, one field at a time;
an unrecognized field name raises, aborting the row. -/
def GetJobInfo (job : QueuedJob α β) :
    List String → Except String (List (QueryValue β))
  | [] => .ok []
  | f :: rest =>
    if f == "id" then
      (GetJobInfo job rest).map (fun row => QueryValue.id job.id :: row)
    else if f == "status" then
      (GetJobInfo job rest).map
        (fun row => QueryValue.status job.GetStatus :: row)
    else if f == "result" then
      (GetJobInfo job rest).map
        (fun row => QueryValue.results (job.ops.map (fun op => op.result))
          :: row)
    else .error (invalidFieldMsg f)

/-- Lexicographic comparison of character lists by code point, the order
Python 2 uses when sorting a list of (ASCII) strings in place. -/
def charListLe : List Char → List Char → Bool
  | [], _ => true
  | _ :: _, [] => false
  | c :: cs, d :: ds =>
    if c.toNat < d.toNat then true
    else if d.toNat < c.toNat then false
    else charListLe cs ds

/-- Lexicographic string comparison by code point. -/
def strLe (a b : String) : Bool :=
  charListLe a.data b.data

/-- Python list.sort() on the job-id strings: sorts them into ascending
lexicographic string order (not numeric order). -/
def sortStrings (l : List String) : List String :=
  List.insertionSort (fun a b => strLe a b = true) l

/-- The per-id loop of JobQueue.QueryJobs: an unknown id contributes None,
a known id contributes its _GetJobInfo row; an exception raised by
_GetJobInfo aborts the whole loop, discarding all rows. -/
def queryLoop (q : JobQueue α β) (fields : List String) :
    List String → Except String (List (Option (List (QueryValue β))))
  | [] => .ok []
  | jid :: rest =>
    match assocGet q.jobs jid with
    | none => (queryLoop q fields rest).map (fun js => none :: js)
    | some job =>
      match GetJobInfo job fields with
      | .error e => .error e
      | .ok row => (queryLoop q fields rest).map (fun js => some row :: js)

/-- JobQueue.QueryJobs: a falsy job_ids argument (None or the empty list)
is replaced by all known ids; the id list is then sorted in place with
list.sort() and each id is looked up in turn. -/
def QueryJobs (q : JobQueue α β) (job_ids : Option (List String))
    (fields : List String) :
    Except String (List (Option (List (QueryValue β)))) :=
  let ids :=
    match job_ids with
    | none => q.jobs.map (fun p => p.1)
    | some l => if l.isEmpty then q.jobs.map (fun p => p.1) else l
  queryLoop q fields (sortStrings ids)

/-- The field names _GetJobInfo recognizes. -/
def isKnownField (f : String) : Bool :=
  f == "id" || f == "status" || f == "result"

/-- The first field name of a query that _GetJobInfo does not recognize:
the one its exception names. -/
def firstUnknown (fields : List String) : Option String :=
  fields.find? (fun f => !(isKnownField f))

/-- The value _GetJobInfo projects for one recognized field (meaningful
only for the recognized field names). -/
def projField (job : QueuedJob α β) (f : String) : QueryValue β :=
  if f == "id" then QueryValue.id job.id
  else if f == "status" then QueryValue.status job.GetStatus
  else QueryValue.results (job.ops.map (fun op => op.result))

/-- A value in a QMP wire dictionary: a string, an integer, or a nested
dictionary (used for the props object). -/
inductive QVal where
  | vstr (s : String)
  | vint (n : Int)
  | vdict (d : List (String × QVal))

/-- Lookup in a QMP wire dictionary: v[k], None when the key is absent. -/
def qdictGet (d : List (String × QVal)) (k : String) : Option QVal :=
  (d.find? (fun p => p.1 == k)).map (fun p => p.2)

/-- The qmp vcpu device record (dataclass QMPVCPUItem). -/
structure QMPVCPUItem where
  cpu_id : String
  driver : String
  socket_id : Int
  core_id : Int
  thread_id : Int
  deriving DecidableEq

/-- QMPVCPUItem.to_dict: dataclasses.asdict, the field-name dictionary in
field declaration order. -/
def QMPVCPUItem.to_dict (item : QMPVCPUItem) : List (String × QVal) :=
  [("cpu_id", .vstr item.cpu_id),
   ("driver", .vstr item.driver),
   ("socket_id", .vint item.socket_id),
   ("core_id", .vint item.core_id),
   ("thread_id", .vint item.thread_id)]

/-- QMPVCPUItem.to_qmp_vcpu: the device_add command dictionary, with the
hyphenated wire key names. -/
def QMPVCPUItem.to_qmp_vcpu (item : QMPVCPUItem) : List (String × QVal) :=
  [("id", .vstr item.cpu_id),
   ("driver", .vstr item.driver),
   ("socket-id", .vint item.socket_id),
   ("core-id", .vint item.core_id),
   ("thread-id", .vint item.thread_id)]

/-- QMPVCPUItem.from_dict: QMPVCPUItem(**items).  Keyword expansion
requires the dictionary to carry exactly the five field names with
suitable values; anything else raises, modelled as none. -/
def QMPVCPUItem.from_dict (d : List (String × QVal)) : Option QMPVCPUItem :=
  if d.length == 5 then
    match qdictGet d "cpu_id", qdictGet d "driver", qdictGet d "socket_id",
        qdictGet d "core_id", qdictGet d "thread_id" with
    | some (.vstr c), some (.vstr dr), some (.vint s), some (.vint co),
        some (.vint t) =>
      some { cpu_id := c, driver := dr, socket_id := s, core_id := co,
             thread_id := t }
    | _, _, _, _, _ => none
  else none

/-- QMPVCPUItem.from_qmp_vcpu: reads the nested props object of a
query-hotpluggable-cpus response entry, synthesizes the cpu id as
"cpu-" followed by the socket id, and takes the driver from the top-level
type key.  A missing key or ill-typed value raises, modelled as none. -/
def QMPVCPUItem.from_qmp_vcpu (vcpu : List (String × QVal)) :
    Option QMPVCPUItem :=
  match qdictGet vcpu "props" with
  | some (.vdict props) =>
    match qdictGet props "socket-id", qdictGet props "core-id",
        qdictGet props "thread-id", qdictGet vcpu "type" with
    | some (.vint s), some (.vint co), some (.vint t), some (.vstr ty) =>
      some { cpu_id := "cpu-" ++ toString s, driver := ty, socket_id := s,
             core_id := co, thread_id := t }
    | _, _, _, _ => none
  | _ => none

/-- Test fixture: one job with a single opcode, submitted to a fresh
registry. -/
def qOne : JobQueue Nat Nat :=
  (SubmitJob JobQueue.new [1]).1

/-- Test fixture: two jobs with ids 1 and 2, submitted to a fresh
registry. -/
def qTwo : JobQueue Nat Nat :=
  (SubmitJob (SubmitJob JobQueue.new [1]).1 [2]).1

/-- Test fixture: ten jobs with ids 1 through 10, submitted to a fresh
registry. -/
def qTen : JobQueue Nat Nat :=
  (List.range 10).foldl (fun q n => (SubmitJob q [n]).1) JobQueue.new

/-- Test fixture: a processor over Nat opcodes that fails on opcode 20
with message boom and succeeds on everything else. -/
def proc4 : Nat → Except String Nat :=
  fun n => if n == 20 then .error "boom" else .ok n

/-- Test fixture: a processor that fails on every opcode. -/
def proc5 : Nat → Except String Nat :=
  fun _ => .error "boom"

theorem charListLe_total : ∀ (a b : List Char),
    charListLe a b = true ∨ charListLe b a = true
  | [], _ => Or.inl rfl
  | _ :: _, [] => Or.inr rfl
  | c :: cs, d :: ds => by
    simp only [charListLe]
    rcases Nat.lt_trichotomy c.toNat d.toNat with h | h | h
    · left
      simp [h]
    · have h2 : ¬ c.toNat < d.toNat := by omega
      have h3 : ¬ d.toNat < c.toNat := by omega
      simpa [h2, h3] using charListLe_total cs ds
    · right
      simp [h, Nat.lt_asymm h]

theorem charListLe_trans : ∀ (a b c : List Char),
    charListLe a b = true → charListLe b c = true → charListLe a c = true
  | [], _, _ => fun _ _ => rfl
  | _ :: _, [], _ => by intro h1 _; simp [charListLe] at h1
  | _ :: _, _ :: _, [] => by intro _ h2; simp [charListLe] at h2
  | a :: as, b :: bs, c :: cs => by
    simp only [charListLe]
    intro h1 h2
    have key1 : a.toNat < b.toNat ∨
        (a.toNat = b.toNat ∧ charListLe as bs = true) := by
      by_cases hab : a.toNat < b.toNat
      · exact Or.inl hab
      · by_cases hba : b.toNat < a.toNat
        · simp [hab, hba] at h1
        · exact Or.inr ⟨by omega, by simpa [hab, hba] using h1⟩
    have key2 : b.toNat < c.toNat ∨
        (b.toNat = c.toNat ∧ charListLe bs cs = true) := by
      by_cases hbc : b.toNat < c.toNat
      · exact Or.inl hbc
      · by_cases hcb : c.toNat < b.toNat
        · simp [hbc, hcb] at h2
        · exact Or.inr ⟨by omega, by simpa [hbc, hcb] using h2⟩
    rcases key1 with hab | ⟨hab, t1⟩ <;> rcases key2 with hbc | ⟨hbc, t2⟩
    · simp [show a.toNat < c.toNat by omega]
    · simp [show a.toNat < c.toNat by omega]
    · simp [show a.toNat < c.toNat by omega]
    · have hac : ¬ a.toNat < c.toNat := by omega
      have hca : ¬ c.toNat < a.toNat := by omega
      simpa [hac, hca] using charListLe_trans as bs cs t1 t2

theorem sortStrings_perm (l : List String) :
    List.Perm (sortStrings l) l :=
  List.perm_insertionSort _ l

theorem sortStrings_sorted (l : List String) :
    List.Sorted (fun a b => strLe a b = true) (sortStrings l) := by
  haveI : IsTotal String (fun a b => strLe a b = true) :=
    ⟨fun a b => charListLe_total a.data b.data⟩
  haveI : IsTrans String (fun a b => strLe a b = true) :=
    ⟨fun a b c => charListLe_trans a.data b.data c.data⟩
  exact List.sorted_insertionSort _ l

theorem statusLoop_eq (l : List OpStatus) : ∀ (st : JobStatus) (allS : Bool),
    statusLoop st allS l =
      ((lastER l).getD st, allS && l.all (fun s => s == .success)) := by
  induction l with
  | nil => intro st allS; simp [statusLoop, lastER]
  | cons s rest ih =>
    intro st allS
    cases s with
    | success =>
      simp only [statusLoop, lastER, ih]
      cases h : lastER rest <;> simp [h, List.all_cons, Bool.and_assoc]
    | queued =>
      simp only [statusLoop, lastER, ih]
      cases h : lastER rest <;> simp [h, List.all_cons]
    | error =>
      simp only [statusLoop, lastER, ih]
      cases h : lastER rest <;> simp [h, List.all_cons]
    | running =>
      simp only [statusLoop, lastER, ih]
      cases h : lastER rest <;> simp [h, List.all_cons]

theorem GetStatusUnlocked_eq (ops : List (QueuedOpCode α β)) :
    GetStatusUnlocked ops = specAgg (ops.map (fun op => op.status)) := by
  unfold GetStatusUnlocked specAgg
  rw [statusLoop_eq]
  cases h : (ops.map (fun op => op.status)).all (fun s => s == .success) <;>
    simp [h]

theorem runOps_fail (proc : α → Except String β) :
    ∀ (l : List α) (k : Nat) (hk : k < l.length) (msg : String),
      (∀ i, (hi : i < k) → (proc l[i]).isOk = true) →
      proc l[k] = .error msg →
      runOps proc (l.map mkQueuedOpCode) =
        ((l.take (k + 1)).map (runSlot proc) ++
           (l.drop (k + 1)).map mkQueuedOpCode,
         l.take (k + 1), some msg) := by
  intro l
  induction l with
  | nil => intro k hk; simp at hk
  | cons a t ih =>
    intro k hk msg hok herr
    cases k with
    | zero =>
      simp only [List.getElem_cons_zero] at herr
      simp [runOps, mkQueuedOpCode, runSlot, herr]
    | succ k' =>
      have h0 : (proc a).isOk = true := by
        have := hok 0 (Nat.succ_pos k')
        simpa using this
      obtain ⟨r, hr⟩ : ∃ r, proc a = .ok r := by
        cases hpa : proc a with
        | ok r => exact ⟨r, rfl⟩
        | error e => rw [hpa] at h0; simp [Except.isOk, Except.toBool] at h0
      have hk' : k' < t.length := by
        simpa [Nat.succ_lt_succ_iff] using hk
      have hok' : ∀ i, (hi : i < k') → (proc t[i]).isOk = true := by
        intro i hi
        have := hok (i + 1) (Nat.succ_lt_succ hi)
        simpa using this
      have herr' : proc t[k'] = .error msg := by
        simpa using herr
      simp only [List.map_cons, runOps, mkQueuedOpCode, hr,
        ih k' hk' msg hok' herr']
      simp [List.take_succ_cons, List.drop_succ_cons, runSlot, hr,
        mkQueuedOpCode]

theorem runFail_errSlot (proc : α → Except String β) (l : List α) (k : Nat)
    (msg : String) (hk : k < l.length)
    (hok : ∀ i, (hi : i < k) → (proc l[i]).isOk = true)
    (herr : proc l[k] = .error msg) :
    (Run proc (l.map mkQueuedOpCode)).1[k]? =
      some { input := l[k], status := .error, result := some (.fail msg) } := by
  have hrun := runOps_fail proc l k hk msg hok herr
  have hRunEq : (Run proc (l.map mkQueuedOpCode)).1 =
      (l.take (k + 1)).map (runSlot proc) ++
        (l.drop (k + 1)).map mkQueuedOpCode := by
    unfold Run
    rw [hrun]
  rw [hRunEq]
  have hlen : ((l.take (k + 1)).map (runSlot proc)).length = k + 1 := by
    simp [List.length_take, Nat.min_eq_left (Nat.succ_le_of_lt hk)]
  rw [List.getElem?_append_left (by omega)]
  rw [List.getElem?_map]
  rw [List.getElem?_take, if_pos (Nat.lt_succ_self k)]
  rw [List.getElem?_eq_getElem hk]
  simp [runSlot, herr]

theorem runFail_laterSlot (proc : α → Except String β) (l : List α) (k : Nat)
    (msg : String) (hk : k < l.length)
    (hok : ∀ i, (hi : i < k) → (proc l[i]).isOk = true)
    (herr : proc l[k] = .error msg)
    (j : Nat) (h1 : k < j) (h2 : j < l.length) :
    (Run proc (l.map mkQueuedOpCode)).1[j]? = some (mkQueuedOpCode l[j]) := by
  have hrun := runOps_fail proc l k hk msg hok herr
  have hRunEq : (Run proc (l.map mkQueuedOpCode)).1 =
      (l.take (k + 1)).map (runSlot proc) ++
        (l.drop (k + 1)).map mkQueuedOpCode := by
    unfold Run
    rw [hrun]
  rw [hRunEq]
  have hlen : ((l.take (k + 1)).map (runSlot proc)).length = k + 1 := by
    simp [List.length_take, Nat.min_eq_left (Nat.succ_le_of_lt hk)]
  rw [List.getElem?_append_right (by omega)]
  rw [hlen]
  rw [List.getElem?_map]
  rw [List.getElem?_drop]
  have hidx : k + 1 + (j - (k + 1)) = j := by omega
  rw [hidx]
  rw [List.getElem?_eq_getElem h2]
  rfl

theorem runFail_trace (proc : α → Except String β) (l : List α) (k : Nat)
    (msg : String) (hk : k < l.length)
    (hok : ∀ i, (hi : i < k) → (proc l[i]).isOk = true)
    (herr : proc l[k] = .error msg) :
    (Run proc (l.map mkQueuedOpCode)).2.1 = l.take (k + 1) := by
  have hrun := runOps_fail proc l k hk msg hok herr
  unfold Run
  rw [hrun]

theorem runFail_escape (proc : α → Except String β) (l : List α) (k : Nat)
    (msg : String) (hk : k < l.length)
    (hok : ∀ i, (hi : i < k) → (proc l[i]).isOk = true)
    (herr : proc l[k] = .error msg) :
    (runOps proc (l.map mkQueuedOpCode)).2.2 = some msg := by
  rw [runOps_fail proc l k hk msg hok herr]

theorem Run_no_escape (proc : α → Except String β)
    (ops : List (QueuedOpCode α β)) :
    (Run proc ops).2.2 = none := by
  unfold Run
  rcases runOps proc ops with ⟨a, b, c⟩
  rfl

theorem GetJobInfo_known (job : QueuedJob α β) :
    ∀ (fields : List String), (∀ f ∈ fields, isKnownField f = true) →
      GetJobInfo job fields = .ok (fields.map (projField job))
  | [], _ => rfl
  | f :: rest, h => by
    have hf : isKnownField f = true := h f (List.mem_cons_self f rest)
    have hrest := GetJobInfo_known job rest
      (fun g hg => h g (List.mem_cons_of_mem f hg))
    have hor : (f = "id" ∨ f = "status") ∨ f = "result" := by
      simpa [isKnownField] using hf
    rcases hor with (rfl | rfl) | rfl <;>
      simp [GetJobInfo, hrest, projField, Except.map]

theorem GetJobInfo_unknown (job : QueuedJob α β) :
    ∀ (fields : List String) (f : String), firstUnknown fields = some f →
      GetJobInfo job fields = .error (invalidFieldMsg f)
  | [], f, h => by simp [firstUnknown] at h
  | g :: rest, f, h => by
    by_cases hk : isKnownField g = true
    · have h2 : firstUnknown rest = some f := by
        simpa [firstUnknown, List.find?_cons, hk] using h
      have hrest := GetJobInfo_unknown job rest f h2
      have hor : (g = "id" ∨ g = "status") ∨ g = "result" := by
        simpa [isKnownField] using hk
      rcases hor with (rfl | rfl) | rfl <;>
        simp [GetJobInfo, hrest, Except.map]
    · have hg : g = f := by
        have hk2 : isKnownField g = false := by
          simpa using hk
        simpa [firstUnknown, List.find?_cons, hk2] using h
      subst hg
      have hnot : ¬ (g = "id" ∨ g = "status" ∨ g = "result") := by
        intro hor
        apply hk
        rcases hor with rfl | rfl | rfl <;> rfl
      push_neg at hnot
      obtain ⟨n1, n2, n3⟩ := hnot
      simp [GetJobInfo, n1, n2, n3]

theorem queryLoop_known (q : JobQueue α β) (fields : List String)
    (hf : ∀ f ∈ fields, isKnownField f = true) :
    ∀ ids, queryLoop q fields ids = .ok (ids.map (fun jid =>
      (assocGet q.jobs jid).map (fun job => fields.map (projField job))))
  | [] => rfl
  | jid :: rest => by
    have ih := queryLoop_known q fields hf rest
    cases hget : assocGet q.jobs jid with
    | none => simp [queryLoop, hget, ih, Except.map]
    | some job =>
      simp [queryLoop, hget, GetJobInfo_known job fields hf, ih, Except.map]

theorem queryLoop_err (q : JobQueue α β) (fields : List String) (f : String)
    (hf : firstUnknown fields = some f) :
    ∀ ids, (∃ jid ∈ ids, (assocGet q.jobs jid).isSome = true) →
      queryLoop q fields ids = .error (invalidFieldMsg f)
  | [], h => by simp at h
  | jid :: rest, h => by
    cases hget : assocGet q.jobs jid with
    | some job => simp [queryLoop, hget, GetJobInfo_unknown job fields f hf]
    | none =>
      have h2 : ∃ j ∈ rest, (assocGet q.jobs j).isSome = true := by
        obtain ⟨j, hj, hs⟩ := h
        rcases List.mem_cons.mp hj with rfl | hj2
        · rw [hget] at hs
          simp at hs
        · exact ⟨j, hj2, hs⟩
      simp [queryLoop, hget, queryLoop_err q fields f hf rest h2, Except.map]

theorem assocGet_of_mem {γ : Type} (d : List (String × γ)) (k : String)
    (hk : k ∈ d.map (fun p => p.1)) :
    ∃ p, d.find? (fun p => p.1 == k) = some p ∧ p.1 = k ∧ p ∈ d := by
  have hsome : (d.find? (fun p => p.1 == k)).isSome = true := by
    rw [List.find?_isSome]
    obtain ⟨p, hp, hp1⟩ := List.mem_map.mp hk
    exact ⟨p, hp, by simp [hp1]⟩
  obtain ⟨p, hp⟩ := Option.isSome_iff_exists.mp hsome
  refine ⟨p, hp, ?_, List.mem_of_find?_eq_some hp⟩
  have := List.find?_some hp
  simpa using this

theorem jobsGet_of_mem (q : JobQueue α β)
    (hid : ∀ p ∈ q.jobs, p.2.id = p.1) (k : String)
    (hk : k ∈ q.jobs.map (fun p => p.1)) :
    ∃ job, assocGet q.jobs k = some job ∧ job.id = k := by
  obtain ⟨p, hp, hpk, hmem⟩ := assocGet_of_mem q.jobs k hk
  refine ⟨p.2, by simp [assocGet, hp], ?_⟩
  rw [hid p hmem, hpk]

/-- C1: the claim says submitting an empty opcode sequence consumes no job
id.  In the code _NewJobIdUnlocked runs before _QueuedJob raises, so the
counter is already incremented: after a failing empty submission the next
successful submission returns id 2, while without the failing call it
would have returned id 1. -/
theorem C1_counterexample :
    (SubmitJob (JobQueue.new : JobQueue Nat Nat) []).2 = .error "No opcodes"
    ∧ (SubmitJob (JobQueue.new : JobQueue Nat Nat) []).1.jobs = []
    ∧ (SubmitJob (SubmitJob (JobQueue.new : JobQueue Nat Nat) []).1 [5]).2 =
        .ok "2"
    ∧ (SubmitJob (JobQueue.new : JobQueue Nat Nat) [5]).2 = .ok "1"
    ∧ ("2" : String) ≠ "1" :=
  ⟨rfl, rfl, rfl, rfl, by decide⟩

/-- C1 as amended: an empty submission fails with the empty-job error and
stores no job, but the id counter is incremented, so the next successful
submission returns an id one greater than it would have had the failing
call never happened. -/
theorem C1_theorem (q : JobQueue α β) (op : α) :
    (SubmitJob q []).2 = .error "No opcodes"
    ∧ (SubmitJob q []).1.jobs = q.jobs
    ∧ (SubmitJob q []).1.last_job_id = q.last_job_id + 1
    ∧ (SubmitJob (SubmitJob q []).1 [op]).2 =
        .ok (toString (q.last_job_id + 2))
    ∧ (SubmitJob q [op]).2 = .ok (toString (q.last_job_id + 1)) :=
  ⟨rfl, rfl, rfl, rfl, rfl⟩

/-- C2: the claim says any ERROR slot forces aggregate ERROR regardless of
where RUNNING slots appear.  The loop of _GetStatusUnlocked is
write-last-wins, so a RUNNING slot after the last ERROR slot yields
aggregate RUNNING. -/
theorem C2_counterexample :
    QueuedJob.GetStatus
        { id := "1", ops := [testSlot .error, testSlot .running] } =
      .running
    ∧ JobStatus.running ≠ JobStatus.error :=
  ⟨rfl, by decide⟩

/-- C2 as amended: the aggregate status is SUCCESS exactly when every slot
is SUCCESS; otherwise it is the status of the last slot that is ERROR or
RUNNING (ERROR giving ERROR, RUNNING giving RUNNING), and QUEUED when no
slot is ERROR or RUNNING. -/
theorem C2_theorem (job : QueuedJob α β) :
    job.GetStatus = specAgg (job.ops.map (fun op => op.status)) :=
  GetStatusUnlocked_eq job.ops

/-- C3: the claim says QueryJobs without ids lists all jobs in ascending
numeric id order, with "2" before "10".  list.sort() sorts the id strings
lexicographically, so with ten jobs stored id "10" comes directly after
"1" and before "2". -/
theorem C3_counterexample :
    QueryJobs qTen none ["id"] =
      .ok [some [.id "1"], some [.id "10"], some [.id "2"], some [.id "3"],
           some [.id "4"], some [.id "5"], some [.id "6"], some [.id "7"],
           some [.id "8"], some [.id "9"]]
    ∧ ([some [QueryValue.id "1"], some [.id "10"], some [.id "2"],
        some [.id "3"], some [.id "4"], some [.id "5"], some [.id "6"],
        some [.id "7"], some [.id "8"], some [.id "9"]] :
        List (Option (List (QueryValue Nat)))) ≠
      [some [.id "1"], some [.id "2"], some [.id "3"], some [.id "4"],
       some [.id "5"], some [.id "6"], some [.id "7"], some [.id "8"],
       some [.id "9"], some [.id "10"]] :=
  ⟨rfl, by decide⟩

/-- C3 as amended: QueryJobs with an empty or absent id list covers all
known job ids, ordered ascending in lexicographic string order (a sorted
permutation of the job-table keys), not numeric order. -/
theorem C3_theorem (q : JobQueue α β)
    (hid : ∀ p ∈ q.jobs, p.2.id = p.1) :
    QueryJobs q none ["id"] =
      .ok ((sortStrings (q.jobs.map (fun p => p.1))).map
        (fun k => some [QueryValue.id k]))
    ∧ List.Sorted (fun a b => strLe a b = true)
        (sortStrings (q.jobs.map (fun p => p.1)))
    ∧ List.Perm (sortStrings (q.jobs.map (fun p => p.1)))
        (q.jobs.map (fun p => p.1)) := by
  refine ⟨?_, sortStrings_sorted _, sortStrings_perm _⟩
  have hfields : ∀ f ∈ ["id"], isKnownField f = true := by
    intro f hf
    simp only [List.mem_singleton] at hf
    subst hf
    rfl
  have hstep : QueryJobs q none ["id"] =
      queryLoop q ["id"] (sortStrings (q.jobs.map (fun p => p.1))) := rfl
  rw [hstep, queryLoop_known q ["id"] hfields]
  congr 1
  apply List.map_congr_left
  intro jid hjid
  have hmem : jid ∈ q.jobs.map (fun p => p.1) :=
    (sortStrings_perm (q.jobs.map (fun p => p.1))).mem_iff.mp hjid
  obtain ⟨job, hget, hjobid⟩ := jobsGet_of_mem q hid jid hmem
  rw [hget]
  simp [projField, hjobid]

theorem C3_witness :
    QueryJobs qTwo none ["id"] = .ok [some [.id "1"], some [.id "2"]] :=
  ((C3_theorem qTwo (by decide)).1).trans rfl

/-- C4: when the processor fails on the k-th opcode, slot k ends with
status ERROR and the failure text as its result, every later slot stays
QUEUED with no result, and the processor is passed exactly the first k+1
inputs, so later opcodes are never executed. -/
theorem C4_theorem (proc : α → Except String β) (l : List α) (k : Nat)
    (msg : String) (hk : k < l.length)
    (hok : ∀ i, (hi : i < k) → (proc l[i]).isOk = true)
    (herr : proc l[k] = .error msg) :
    (Run proc (l.map mkQueuedOpCode)).1[k]? =
      some { input := l[k], status := .error, result := some (.fail msg) }
    ∧ (∀ j, (h1 : k < j) → (h2 : j < l.length) →
        (Run proc (l.map mkQueuedOpCode)).1[j]? =
          some (mkQueuedOpCode l[j]))
    ∧ (Run proc (l.map mkQueuedOpCode)).2.1 = l.take (k + 1) :=
  ⟨runFail_errSlot proc l k msg hk hok herr,
   fun j h1 h2 => runFail_laterSlot proc l k msg hk hok herr j h1 h2,
   runFail_trace proc l k msg hk hok herr⟩

theorem C4_witness :
    (Run proc4 (List.map mkQueuedOpCode [10, 20, 30])).1[1]? =
      some { input := 20, status := .error, result := some (.fail "boom") }
    ∧ (Run proc4 (List.map mkQueuedOpCode [10, 20, 30])).1[2]? =
        some (mkQueuedOpCode 30)
    ∧ (Run proc4 (List.map mkQueuedOpCode [10, 20, 30])).2.1 = [10, 20] := by
  have hk : (1 : Nat) < ([10, 20, 30] : List Nat).length := by decide
  have hok : ∀ i, (hi : i < 1) →
      ((proc4 ([10, 20, 30] : List Nat)[i]).isOk = true) := by
    intro i hi
    have h0 : i = 0 := by omega
    subst h0
    rfl
  have h := C4_theorem proc4 [10, 20, 30] 1 "boom" hk hok rfl
  exact ⟨h.1, h.2.1 2 (by omega) (by decide), h.2.2⟩

/-- C5: the claim says Run propagates an opcode failure to its caller.
The outer except clauses of Run catch every exception escaping the opcode
loop and only log it: here the processor fails on the very first opcode,
the failure escapes the loop, yet Run returns with no escaping
exception. -/
theorem C5_counterexample :
    (runOps proc5 [mkQueuedOpCode 0]).2.2 = some "boom"
    ∧ (Run proc5 [mkQueuedOpCode 0]).2.2 = none :=
  ⟨rfl, rfl⟩

/-- C5 as amended: when an opcode's processor call fails, Run records the
slot's ERROR status and failure text and the failure escapes the opcode
loop, but Run itself catches it (logging only) and returns normally, so no
failure reaches Run's caller. -/
theorem C5_theorem (proc : α → Except String β) (l : List α) (k : Nat)
    (msg : String) (hk : k < l.length)
    (hok : ∀ i, (hi : i < k) → (proc l[i]).isOk = true)
    (herr : proc l[k] = .error msg) :
    (Run proc (l.map mkQueuedOpCode)).2.2 = none
    ∧ (runOps proc (l.map mkQueuedOpCode)).2.2 = some msg
    ∧ (Run proc (l.map mkQueuedOpCode)).1[k]? =
        some { input := l[k], status := .error, result := some (.fail msg) } :=
  ⟨Run_no_escape proc (l.map mkQueuedOpCode),
   runFail_escape proc l k msg hk hok herr,
   runFail_errSlot proc l k msg hk hok herr⟩

theorem C5_witness :
    (Run proc4 (List.map mkQueuedOpCode [10, 20, 30])).2.2 = none
    ∧ (runOps proc4 (List.map mkQueuedOpCode [10, 20, 30])).2.2 =
        some "boom" := by
  have hk : (1 : Nat) < ([10, 20, 30] : List Nat).length := by decide
  have hok : ∀ i, (hi : i < 1) →
      ((proc4 ([10, 20, 30] : List Nat)[i]).isOk = true) := by
    intro i hi
    have h0 : i = 0 := by omega
    subst h0
    rfl
  have h := C5_theorem proc4 [10, 20, 30] 1 "boom" hk hok rfl
  exact ⟨h.1, h.2.1⟩

/-- C6: the claim says every QueryJobs call with an unrecognized field
fails.  _GetJobInfo is only reached for ids that resolve to a stored job:
querying an unknown id with a bogus field returns a not-found row and no
error. -/
theorem C6_counterexample :
    QueryJobs (JobQueue.new : JobQueue Nat Nat) (some ["1"]) ["bogus"] =
      .ok [none]
    ∧ ¬ ∃ e, QueryJobs (JobQueue.new : JobQueue Nat Nat) (some ["1"])
        ["bogus"] = .error e := by
  refine ⟨rfl, ?_⟩
  rintro ⟨e, he⟩
  rw [show QueryJobs (JobQueue.new : JobQueue Nat Nat) (some ["1"])
      ["bogus"] = .ok [none] from rfl] at he
  exact Except.noConfusion he

/-- C6 as amended: when the field list contains an unrecognized name and
at least one requested id resolves to a stored job, the whole query fails
with the error naming the first unrecognized field and returns no rows. -/
theorem C6_theorem (q : JobQueue α β) (ids : List String)
    (fields : List String) (f : String)
    (hf : firstUnknown fields = some f)
    (hknown : ∃ jid ∈ ids, (assocGet q.jobs jid).isSome = true)
    (hne : ids ≠ []) :
    QueryJobs q (some ids) fields = .error (invalidFieldMsg f) := by
  have hids : ids.isEmpty = false := by
    cases ids with
    | nil => exact absurd rfl hne
    | cons a t => rfl
  have hstep : QueryJobs q (some ids) fields =
      queryLoop q fields (sortStrings ids) := by
    simp [QueryJobs, hids]
  rw [hstep]
  apply queryLoop_err q fields f hf
  obtain ⟨jid, hmem, hsome⟩ := hknown
  exact ⟨jid, (sortStrings_perm ids).mem_iff.mpr hmem, hsome⟩

theorem C6_witness :
    QueryJobs qOne (some ["1"]) ["bogus"] =
      .error (invalidFieldMsg "bogus") :=
  C6_theorem qOne ["1"] ["bogus"] "bogus" rfl
    ⟨"1", by decide, by decide⟩ (by decide)

/-- C7: the claim says query rows come back in the order the ids were
requested.  QueryJobs sorts the requested id list before resolving it:
requesting ids 2 and 1 in that order returns the row for id 1 first. -/
theorem C7_counterexample :
    QueryJobs qTwo (some ["2", "1"]) ["id"] =
      .ok [some [.id "1"], some [.id "2"]]
    ∧ ([some [QueryValue.id "1"], some [QueryValue.id "2"]] :
        List (Option (List (QueryValue Nat)))) ≠
      [some [.id "2"], some [.id "1"]] :=
  ⟨rfl, by decide⟩

/-- C7 as amended: for an explicit nonempty id list and recognized fields,
the result has one entry per requested id, but ordered by the
lexicographically sorted ids rather than input order; an unknown id yields
a not-found marker at its (sorted) position without affecting the others,
and a known id yields exactly one projected value per requested field. -/
theorem C7_theorem (q : JobQueue α β) (ids fields : List String)
    (hne : ids ≠ [])
    (hfields : ∀ f ∈ fields, isKnownField f = true) :
    QueryJobs q (some ids) fields =
      .ok ((sortStrings ids).map (fun jid =>
        (assocGet q.jobs jid).map (fun job => fields.map (projField job))))
    ∧ ((sortStrings ids).map (fun jid =>
        (assocGet q.jobs jid).map
          (fun job => fields.map (projField job)))).length = ids.length
    ∧ List.Perm (sortStrings ids) ids
    ∧ ∀ job : QueuedJob α β,
        (fields.map (projField job)).length = fields.length := by
  have hids : ids.isEmpty = false := by
    cases ids with
    | nil => exact absurd rfl hne
    | cons a t => rfl
  have hstep : QueryJobs q (some ids) fields =
      queryLoop q fields (sortStrings ids) := by
    simp [QueryJobs, hids]
  refine ⟨?_, ?_, sortStrings_perm ids, fun job => List.length_map _ _⟩
  · rw [hstep, queryLoop_known q fields hfields]
  · rw [List.length_map]
    exact (sortStrings_perm ids).length_eq

theorem C7_witness :
    QueryJobs qTwo (some ["2", "1"]) ["id", "status", "result"] =
      .ok ((sortStrings ["2", "1"]).map (fun jid =>
        (assocGet qTwo.jobs jid).map
          (fun job => ["id", "status", "result"].map (projField job)))) :=
  (C7_theorem qTwo ["2", "1"] ["id", "status", "result"] (by decide)
    (by
      intro f hf
      simp only [List.mem_cons, List.not_mem_nil, or_false] at hf
      rcases hf with rfl | rfl | rfl <;> rfl)).1

/-- C8: a job with exactly one SUCCESS slot and one ERROR slot and no
RUNNING slot reports aggregate ERROR, in either slot order. -/
theorem C8_theorem (job : QueuedJob α β)
    (hlen : job.ops.length = 2)
    (hs : (job.ops.map (fun op => op.status)).count .success = 1)
    (he : (job.ops.map (fun op => op.status)).count .error = 1)
    (hr : (job.ops.map (fun op => op.status)).count .running = 0) :
    job.GetStatus = .error := by
  obtain ⟨jid, ops⟩ := job
  simp only at hlen hs he hr ⊢
  cases ops with
  | nil => simp at hlen
  | cons o1 t =>
    cases t with
    | nil => simp at hlen
    | cons o2 t2 =>
      cases t2 with
      | cons o3 t3 => simp at hlen
      | nil =>
        obtain ⟨i1, s1, r1⟩ := o1
        obtain ⟨i2, s2, r2⟩ := o2
        cases s1 <;> cases s2 <;>
          first
            | rfl
            | simp_all [List.count_cons, List.count_nil]

theorem C8_witness :
    QueuedJob.GetStatus
      ({ id := "1", ops := [testSlot .success, testSlot .error] } :
        QueuedJob Nat Nat) = .error :=
  C8_theorem { id := "1", ops := [testSlot .success, testSlot .error] }
    (by decide) (by decide) (by decide) (by decide)

/-- C9: to_qmp_vcpu produces the flat device_add dictionary with exactly
the keys id, driver, socket-id, core-id, thread-id taken from the record
fields, and from_qmp_vcpu reads driver from the top-level type key, the
three topology ids from the nested props object, and synthesizes cpu_id
as the string cpu- followed by the props socket-id. -/
theorem C9_theorem (item : QMPVCPUItem) (ty : String) (sid cid tid : Int) :
    QMPVCPUItem.to_qmp_vcpu item =
      [("id", QVal.vstr item.cpu_id), ("driver", QVal.vstr item.driver),
       ("socket-id", QVal.vint item.socket_id),
       ("core-id", QVal.vint item.core_id),
       ("thread-id", QVal.vint item.thread_id)]
    ∧ (QMPVCPUItem.to_qmp_vcpu item).map (fun p => p.1) =
        ["id", "driver", "socket-id", "core-id", "thread-id"]
    ∧ QMPVCPUItem.from_qmp_vcpu
        [("type", QVal.vstr ty),
         ("props", QVal.vdict [("socket-id", QVal.vint sid),
                               ("core-id", QVal.vint cid),
                               ("thread-id", QVal.vint tid)])] =
      some { cpu_id := "cpu-" ++ toString sid, driver := ty,
             socket_id := sid, core_id := cid, thread_id := tid } :=
  ⟨rfl, rfl, rfl⟩

/-- C10: serializing a vCPU record with to_dict and parsing it back with
from_dict is the identity. -/
theorem C10_theorem (item : QMPVCPUItem) :
    QMPVCPUItem.from_dict (QMPVCPUItem.to_dict item) = some item :=
  rfl

end Ganeti
